import Mathlib

/-!
Shallow embedding of the request-scoped transactional query execution
context of `server/src/db.js` (the `dbContextMiddleware` / `ensureTxConn` /
`run` / `get` / `all` functions and the statement classifier
`isBegin` / `isCommit` / `isRollback`).

Connections are identified by natural numbers handed out by the pool in
order (`St.nextConn` is the id of the next connection `pool.getConnection()`
would return).  Every interaction with the pool or with a connection is
recorded in an event trace (`St.events`), in program order: acquiring and
releasing a connection, issuing `beginTransaction` / `commit` / `rollback`
on a connection, and executing a statement either directly against the pool
or against a specific leased connection.

The mysql2 driver is abstracted by an `Oracle`: for each driver call it
says whether the call fails (with an abstract error code) and, for
`execute`, which raw result object or row list comes back.  A failing call
is modelled as `Except.error (DbErr.driver code)` exactly where the
JavaScript promise would reject; `DbErr.missingCtx` is the error thrown by
`ensureTxConn` when no request context is active.
-/

set_option autoImplicit false

namespace Db

/-- Whitespace characters recognised by the JavaScript regex class `\s`
(restricted to ASCII, which is all the classifier keywords interact with). -/
def isWS (c : Char) : Bool :=
  c = ' ' || c = '\t' || c = '\n' || c = '\r' || c = Char.ofNat 11 || c = Char.ofNat 12

/-- List-level version of JavaScript `String.prototype.trim`: drop leading
and trailing whitespace. -/
def trimList (l : List Char) : List Char :=
  ((l.dropWhile isWS).reverse.dropWhile isWS).reverse

/-- JavaScript `String(sql).trim()`. -/
def jsTrim (s : String) : String :=
  String.mk (trimList s.data)

/-- JavaScript regex word character (`\w` = `[A-Za-z0-9_]`). -/
def wordChar (c : Char) : Bool :=
  c.isAlpha || c.isDigit || c = '_'

/-- Whether a regex word boundary `\b` sits between a preceding word
character and this remainder of the input. -/
def atWordBoundary : List Char → Bool
  | [] => true
  | c :: _ => !(wordChar c)

/-- Match a literal keyword at the front of the input, returning the
remainder on success. -/
def stripKw : List Char → List Char → Option (List Char)
  | [], rest => some rest
  | _ :: _, [] => none
  | k :: ks, c :: cs => if c = k then stripKw ks cs else none

/-- Keyword followed by a word boundary (regex `KEYWORD\b`). -/
def startsKw (kw : List Char) (u : List Char) : Bool :=
  match stripKw kw u with
  | some rest => atWordBoundary rest
  | none => false

/-- Regex `\s+`: consume at least one whitespace character, then the
maximal run of whitespace. -/
def skipWS1 : List Char → Option (List Char)
  | [] => none
  | c :: cs => if isWS c then some (cs.dropWhile isWS) else none

/-- Keyword constants (uppercase, since the input is uppercased first to
model the regexes' `i` flag). -/
def kwBEGIN : List Char := ['B', 'E', 'G', 'I', 'N']

def kwSTART : List Char := ['S', 'T', 'A', 'R', 'T']

def kwTRANSACTION : List Char := ['T', 'R', 'A', 'N', 'S', 'A', 'C', 'T', 'I', 'O', 'N']

def kwCOMMIT : List Char := ['C', 'O', 'M', 'M', 'I', 'T']

def kwROLLBACK : List Char := ['R', 'O', 'L', 'L', 'B', 'A', 'C', 'K']

def kwINSERT : List Char := ['I', 'N', 'S', 'E', 'R', 'T']

/-- The trimmed statement text, uppercased character by character; the
classifier regexes all run case-insensitively on the trimmed text, which is
equivalent to running the uppercase pattern on this list. -/
def upperTrim (s : String) : List Char :=
  (jsTrim s).data.map Char.toUpper

/-- The `START\s+TRANSACTION\b` alternative of the begin regex: `START`,
then at least one whitespace character, then `TRANSACTION` at a word
boundary. -/
def startTxnMatch (u : List Char) : Bool :=
  match (stripKw kwSTART u).bind skipWS1 with
  | some rest2 => startsKw kwTRANSACTION rest2
  | none => false

/-- Core of `isBegin`: regex `^\s*(BEGIN|START\s+TRANSACTION)\b` on the
trimmed, uppercased text (the leading `\s*` is vacuous after trimming). -/
def beginMatch (u : List Char) : Bool :=
  startsKw kwBEGIN u || startTxnMatch u

/-- Core of `isCommit`: regex `^\s*COMMIT\b`. -/
def commitMatch (u : List Char) : Bool :=
  startsKw kwCOMMIT u

/-- Core of `isRollback`: regex `^\s*ROLLBACK\b`. -/
def rollbackMatch (u : List Char) : Bool :=
  startsKw kwROLLBACK u

/-- Core of the insert-type test in `run`: regex `^\s*insert\s+` (note the
required trailing whitespace). -/
def insertMatch (u : List Char) : Bool :=
  match stripKw kwINSERT u with
  | some (c :: _) => isWS c
  | some [] => false
  | none => false

/-- Source `isBegin`: `/^\s*(BEGIN|START\s+TRANSACTION)\b/i.test(String(sql).trim())`. -/
def isBegin (sql : String) : Bool :=
  beginMatch (upperTrim sql)

/-- Source `isCommit`: `/^\s*COMMIT\b/i.test(String(sql).trim())`. -/
def isCommit (sql : String) : Bool :=
  commitMatch (upperTrim sql)

/-- Source `isRollback`: `/^\s*ROLLBACK\b/i.test(String(sql).trim())`. -/
def isRollback (sql : String) : Bool :=
  rollbackMatch (upperTrim sql)

/-- The insert-type test applied by `run` to the trimmed statement:
`/^\s*insert\s+/i.test(q)`. -/
def isInsert (sql : String) : Bool :=
  insertMatch (upperTrim sql)

/-- The per-request context created by `dbContextMiddleware`:
`{ conn: null, inTx: false, cleaned: false }`. -/
structure Ctx where
  conn : Option Nat
  inTx : Bool
  cleaned : Bool
deriving Repr, DecidableEq

/-- One interaction with the pool or with a connection, in program order. -/
inductive Event where
  | acquire (c : Nat)
  | release (c : Nat)
  | beginTx (c : Nat)
  | commitTx (c : Nat)
  | rollbackTx (c : Nat)
  | execOnPool (q : String)
  | execOnConn (c : Nat) (q : String)
deriving Repr, DecidableEq

/-- Whether an event is a statement execution (as opposed to pool or
transaction management). -/
def Event.isExec : Event → Bool
  | .execOnPool _ => true
  | .execOnConn _ _ => true
  | _ => false

/-- The statement text carried by an execution event. -/
def Event.sqlText : Event → Option String
  | .execOnPool q => some q
  | .execOnConn _ q => some q
  | _ => none

/-- Global state visible to the query helpers: the active request context
(if the middleware installed one for this unit of work), the pool's next
fresh connection id, and the trace of driver interactions so far. -/
structure St where
  ctx : Option Ctx
  nextConn : Nat
  events : List Event
deriving Repr, DecidableEq

/-- Append an event to the trace. -/
def St.log (s : St) (e : Event) : St :=
  { s with events := s.events ++ [e] }

/-- Replace the active context (the JavaScript code mutates the context
object in place; here the updated record is stored back). -/
def St.setCtx (s : St) (c : Ctx) : St :=
  { s with ctx := some c }

/-- Errors surfaced by the query helpers: the missing-context integration
error thrown by `ensureTxConn`, or an abstract driver error. -/
inductive DbErr where
  | missingCtx
  | driver (code : Nat)
deriving Repr, DecidableEq

/-- The descriptive configuration error message of `ensureTxConn`. -/
def missingCtxMsg : String :=
  "DB context missing. Ensure app.use(dbContextMiddleware) is added before routes."

/-- The message carried by each error. -/
def DbErr.message : DbErr → String
  | .missingCtx => missingCtxMsg
  | .driver n => "driver error " ++ toString n

/-- Raw mysql2 result object as far as `run` inspects it: `insertId` and
`affectedRows` are each either a number or absent (`typeof r.f === "number"`
fails). -/
structure RawResult where
  insertId : Option Int
  affectedRows : Option Int
deriving Repr, DecidableEq

/-- Normalized result of `run`: `{ id, changes }`. -/
structure RunRes where
  id : Option Int
  changes : Int
deriving Repr, DecidableEq

/-- The no-op result `{ id: null, changes: 0 }` returned for transaction
control pseudo-statements. -/
def noopRes : RunRes :=
  { id := none, changes := 0 }

/-- Abstraction of the mysql2 driver: which calls fail (with an abstract
error code), and what `execute` returns.  `execRows` is `none` when the
driver yields no row array (mirroring the `rows?.[0] ?? null` and
`rows ?? []` guards); rows themselves are abstract values. -/
structure Oracle where
  acquireFails : Option Nat
  beginFails : Option Nat
  commitFails : Option Nat
  rollbackFails : Option Nat
  releaseFails : Option Nat
  execFails : String → Option Nat
  execRes : String → RawResult
  execRows : String → Option (List Nat)

/-- Source `ensureTxConn`: throw the descriptive configuration error when no
context is active; otherwise lease a pool connection into `ctx.conn` if none
is held yet.  On success it returns the (updated) context together with the
id of the held connection, which is always `ctx.conn`. -/
def ensureTxConn (o : Oracle) (s : St) : Except DbErr (Nat × Ctx) × St :=
  match s.ctx with
  | none => (.error .missingCtx, s)
  | some c =>
    match c.conn with
    | some cid => (.ok (cid, c), s)
    | none =>
      match o.acquireFails with
      | some n => (.error (.driver n), s)
      | none =>
        (.ok (s.nextConn, { c with conn := some s.nextConn }),
          { ctx := some { c with conn := some s.nextConn }, nextConn := s.nextConn + 1,
            events := s.events ++ [.acquire s.nextConn] })

/-- Routing of an ordinary statement: `useTx = Boolean(ctx?.inTx && ctx?.conn)`;
execute on the leased connection when a transaction is active and a
connection is held, otherwise directly against the pool. -/
def routeExec (s : St) (q : String) : St :=
  match s.ctx with
  | some c =>
    match c.conn with
    | some cid => if c.inTx then s.log (.execOnConn cid q) else s.log (.execOnPool q)
    | none => s.log (.execOnPool q)
  | none => s.log (.execOnPool q)

/-- Normalization tail of `run` for ordinary statements: propagate an
execution error unchanged, otherwise build `{ id, changes }` from the raw
result (`id` only for insert-type statements whose `insertId` is a number,
`changes` defaulting to 0). -/
def execFinish (o : Oracle) (q : String) (s : St) : Except DbErr RunRes × St :=
  match o.execFails q with
  | some n => (.error (.driver n), s)
  | none =>
    let r := o.execRes q
    let idv : Option Int := if insertMatch (q.data.map Char.toUpper) then r.insertId else none
    (.ok { id := idv, changes := r.affectedRows.getD 0 }, s)

/-- Source `run`.  The statement is trimmed once (`q`); the classifier is
applied to the trimmed text (the source trims again inside `isBegin` etc.,
which is idempotent).  Transaction pseudo-statements manage the leased
connection; ordinary statements are routed by `routeExec` and normalized by
`execFinish`. -/
def run (o : Oracle) (sql : String) (s : St) : Except DbErr RunRes × St :=
  let q := jsTrim sql
  if isBegin sql then
    match ensureTxConn o s with
    | (.error e, s1) => (.error e, s1)
    | (.ok (cid, c), s1) =>
      if c.inTx then (.ok noopRes, s1)
      else
        let s2 := s1.log (.beginTx cid)
        match o.beginFails with
        | some n => (.error (.driver n), s2)
        | none => (.ok noopRes, s2.setCtx { c with inTx := true })
  else if isCommit sql then
    match ensureTxConn o s with
    | (.error e, s1) => (.error e, s1)
    | (.ok (cid, c), s1) =>
      if c.inTx then
        let s2 := s1.log (.commitTx cid)
        match o.commitFails with
        | some n => (.error (.driver n), s2)
        | none =>
          let c2 : Ctx := { c with inTx := false }
          let s3 := (s2.setCtx c2).log (.release cid)
          match o.releaseFails with
          | some n => (.error (.driver n), s3)
          | none => (.ok noopRes, s3.setCtx { c2 with conn := none })
      else
        let s2 := s1.log (.release cid)
        match o.releaseFails with
        | some n => (.error (.driver n), s2)
        | none => (.ok noopRes, s2.setCtx { c with conn := none })
  else if isRollback sql then
    match ensureTxConn o s with
    | (.error e, s1) => (.error e, s1)
    | (.ok (cid, c), s1) =>
      if c.inTx then
        let s2 := s1.log (.rollbackTx cid)
        match o.rollbackFails with
        | some n => (.error (.driver n), s2)
        | none =>
          let c2 : Ctx := { c with inTx := false }
          let s3 := (s2.setCtx c2).log (.release cid)
          match o.releaseFails with
          | some n => (.error (.driver n), s3)
          | none => (.ok noopRes, s3.setCtx { c2 with conn := none })
      else
        let s2 := s1.log (.release cid)
        match o.releaseFails with
        | some n => (.error (.driver n), s2)
        | none => (.ok noopRes, s2.setCtx { c with conn := none })
  else
    execFinish o q (routeExec s q)

/-- Source `get`: route the trimmed statement, propagate execution errors
unchanged, and return `rows?.[0] ?? null`. -/
def get (o : Oracle) (sql : String) (s : St) : Except DbErr (Option Nat) × St :=
  let q := jsTrim sql
  let s1 := routeExec s q
  match o.execFails q with
  | some n => (.error (.driver n), s1)
  | none =>
    match o.execRows q with
    | some rows => (.ok rows.head?, s1)
    | none => (.ok none, s1)

/-- Source `all`: route the trimmed statement, propagate execution errors
unchanged, and return `rows ?? []`. -/
def all (o : Oracle) (sql : String) (s : St) : Except DbErr (List Nat) × St :=
  let q := jsTrim sql
  let s1 := routeExec s q
  match o.execFails q with
  | some n => (.error (.driver n), s1)
  | none =>
    match o.execRows q with
    | some rows => (.ok rows, s1)
    | none => (.ok [], s1)

/-- A cleanup-path driver error is swallowed by an empty `catch {}`: the
state is unaffected whatever the outcome was. -/
def discardErr (outcome : Option Nat) (s : St) : St :=
  match outcome with
  | some _ => s
  | none => s

/-- The safety-net `cleanup` closure installed by `dbContextMiddleware` on
the response's `finish` and `close` signals: a one-shot guard on
`ctx.cleaned`; if a connection is held, roll back when a transaction is
still open (error discarded), then release the connection (error
discarded) and clear `conn` and `inTx`. -/
def cleanup (o : Oracle) (s : St) : St :=
  match s.ctx with
  | none => s
  | some c =>
    if c.cleaned then s
    else
      let c1 : Ctx := { c with cleaned := true }
      match c1.conn with
      | none => s.setCtx c1
      | some cid =>
        let s1 :=
          if c1.inTx then discardErr o.rollbackFails ((s.setCtx c1).log (.rollbackTx cid))
          else s.setCtx c1
        let s2 := discardErr o.releaseFails (s1.log (.release cid))
        s2.setCtx { c1 with conn := none, inTx := false }

/-- One operation of the query API or the safety net, with the driver
behaviour it encounters. -/
inductive Op where
  | opRun (o : Oracle) (sql : String)
  | opGet (o : Oracle) (sql : String)
  | opAll (o : Oracle) (sql : String)
  | opCleanup (o : Oracle)

/-- State transition of one operation (results discarded). -/
def step : Op → St → St
  | .opRun o sql, s => (run o sql s).2
  | .opGet o sql, s => (get o sql s).2
  | .opAll o sql, s => (all o sql s).2
  | .opCleanup o, s => cleanup o s

/-- Run a sequence of operations. -/
def steps (ops : List Op) (s : St) : St :=
  ops.foldl (fun t op => step op t) s

/-- The context freshly created by `dbContextMiddleware`. -/
def freshCtx : Ctx :=
  { conn := none, inTx := false, cleaned := false }

/-- State at the start of a request: fresh context, empty trace. -/
def initSt : St :=
  { ctx := some freshCtx, nextConn := 0, events := [] }

/-- State for a unit of work with no active request context. -/
def noCtxSt : St :=
  { ctx := none, nextConn := 0, events := [] }

/-- The spec's context invariant: an active transaction implies a held
connection. -/
def ctxInv (s : St) : Prop :=
  ∀ c : Ctx, s.ctx = some c → c.inTx = true → c.conn ≠ none

/-- A benign driver: nothing fails, executions report no insert id and no
affected-row count, row queries return no rows. -/
def oralOk : Oracle :=
  { acquireFails := none, beginFails := none, commitFails := none,
    rollbackFails := none, releaseFails := none,
    execFails := fun _ => none,
    execRes := fun _ => { insertId := none, affectedRows := none },
    execRows := fun _ => some [] }

/-- A driver whose cleanup-relevant calls (rollback and release) fail, used
to exercise the safety net's error discarding. -/
def oralCleanupBad : Oracle :=
  { oralOk with rollbackFails := some 4, releaseFails := some 5 }

/-- A driver whose statement executions fail with code 7. -/
def oralExecBad : Oracle :=
  { oralOk with execFails := fun _ => some 7 }

/-- A driver whose executions report insert id 42 and one affected row. -/
def oralIns : Oracle :=
  { oralOk with execRes := fun _ => { insertId := some 42, affectedRows := some 1 } }

/-- A state mid-request with an open transaction on leased connection 0. -/
def stTx : St :=
  { ctx := some { conn := some 0, inTx := true, cleaned := false },
    nextConn := 1, events := [] }

/-- Whether a character list does not start with whitespace (so a maximal
whitespace run cannot extend into it). -/
def leadNonWS : List Char → Prop
  | [] => True
  | c :: _ => isWS c = false

/-- The statement-text property "starts with this keyword as a whole word":
the keyword is a literal prefix and a word boundary follows. -/
def WordPrefix (kw : List Char) (u : List Char) : Prop :=
  ∃ r, u = kw ++ r ∧ atWordBoundary r = true

/-- The literal spec phrase `START TRANSACTION` with its single interior
space, for the spec-side reading of the classifier. -/
def kwSTARTTXN : List Char :=
  ['S', 'T', 'A', 'R', 'T', ' ', 'T', 'R', 'A', 'N', 'S', 'A', 'C', 'T', 'I', 'O', 'N']

/-- Spec-side begin classifier, read literally from the spec sentence: after
trimming and case folding, the statement starts with `BEGIN` or with the
phrase `START TRANSACTION` (one space) as a whole word. -/
def specIsBegin (sql : String) : Bool :=
  startsKw kwBEGIN (upperTrim sql) || startsKw kwSTARTTXN (upperTrim sql)

@[simp]
theorem log_ctx (s : St) (e : Event) : (s.log e).ctx = s.ctx := rfl

@[simp]
theorem log_nextConn (s : St) (e : Event) : (s.log e).nextConn = s.nextConn := rfl

@[simp]
theorem log_events (s : St) (e : Event) : (s.log e).events = s.events ++ [e] := rfl

@[simp]
theorem setCtx_ctx (s : St) (c : Ctx) : (s.setCtx c).ctx = some c := rfl

@[simp]
theorem setCtx_nextConn (s : St) (c : Ctx) : (s.setCtx c).nextConn = s.nextConn := rfl

@[simp]
theorem setCtx_events (s : St) (c : Ctx) : (s.setCtx c).events = s.events := rfl

@[simp]
theorem discardErr_eq (x : Option Nat) (s : St) : discardErr x s = s := by
  cases x <;> rfl

theorem ensureTxConn_noCtx (o : Oracle) (s : St) (h : s.ctx = none) :
    ensureTxConn o s = (.error .missingCtx, s) := by
  simp [ensureTxConn, h]

theorem ensureTxConn_held (o : Oracle) (s : St) (c : Ctx) (cid : Nat)
    (h : s.ctx = some c) (hc : c.conn = some cid) :
    ensureTxConn o s = (.ok (cid, c), s) := by
  simp [ensureTxConn, h, hc]

theorem ensureTxConn_fresh (o : Oracle) (s : St) (c : Ctx)
    (h : s.ctx = some c) (hc : c.conn = none) (ha : o.acquireFails = none) :
    ensureTxConn o s =
      (.ok (s.nextConn, { c with conn := some s.nextConn }),
        { ctx := some { c with conn := some s.nextConn }, nextConn := s.nextConn + 1,
          events := s.events ++ [.acquire s.nextConn] }) := by
  simp [ensureTxConn, h, hc, ha]

theorem ensureTxConn_err_inv {o : Oracle} {s s1 : St} {e : DbErr}
    (h : ensureTxConn o s = (.error e, s1)) : s1 = s := by
  unfold ensureTxConn at h
  split at h
  · simp only [Prod.mk.injEq] at h
    exact h.2.symm
  · split at h
    · simp at h
    · split at h
      · simp only [Prod.mk.injEq] at h
        exact h.2.symm
      · simp at h

theorem ensureTxConn_ok_inv {o : Oracle} {s s1 : St} {cid : Nat} {c : Ctx}
    (h : ensureTxConn o s = (.ok (cid, c), s1)) :
    c.conn = some cid ∧ s1.ctx = some c := by
  unfold ensureTxConn at h
  split at h
  · simp at h
  · rename_i c0 hctx
    split at h
    · rename_i cid0 hconn
      simp only [Prod.mk.injEq, Except.ok.injEq] at h
      obtain ⟨⟨hcid, hc⟩, hs⟩ := h
      subst hcid hc hs
      exact ⟨hconn, hctx⟩
    · split at h
      · simp at h
      · simp only [Prod.mk.injEq, Except.ok.injEq] at h
        obtain ⟨⟨hcid, hc⟩, hs⟩ := h
        subst hcid hc hs
        exact ⟨rfl, rfl⟩

theorem stripKw_eq_some : ∀ (kw u r : List Char), stripKw kw u = some r ↔ u = kw ++ r
  | [], u, r => by simp [stripKw, eq_comm]
  | k :: ks, [], r => by simp [stripKw]
  | k :: ks, c :: cs, r => by
    by_cases hc : c = k
    · subst hc
      simp [stripKw, stripKw_eq_some ks cs r]
    · simp [stripKw, hc, Ne.symm hc]

theorem startsKw_iff (kw u : List Char) :
    startsKw kw u = true ↔ ∃ r, u = kw ++ r ∧ atWordBoundary r = true := by
  unfold startsKw
  cases hs : stripKw kw u with
  | none =>
    simp only [Bool.false_eq_true, false_iff, not_exists]
    intro r hr
    rw [← stripKw_eq_some kw u r, hs] at hr
    exact absurd hr.1 (by simp)

  | some rest =>
    have hu : u = kw ++ rest := (stripKw_eq_some kw u rest).mp hs
    constructor
    · intro hb
      exact ⟨rest, hu, hb⟩
    · rintro ⟨r, hr, hb⟩
      have hrr : rest = r := List.append_cancel_left (hu.symm.trans hr)
      rw [hrr]
      exact hb

theorem startsKw_head {k : Char} {ks u : List Char} (h : startsKw (k :: ks) u = true) :
    ∃ t, u = k :: t := by
  rcases (startsKw_iff _ _).mp h with ⟨r, hu, _⟩
  exact ⟨ks ++ r, by simpa using hu⟩

theorem dropWhile_append_ws (ws r : List Char) (hws : ∀ c ∈ ws, isWS c = true)
    (hr : leadNonWS r) : (ws ++ r).dropWhile isWS = r := by
  induction ws with
  | nil =>
    cases r with
    | nil => rfl
    | cons c cs =>
      have : isWS c = false := hr
      simp [List.dropWhile_cons, this]
  | cons w wsr ih =>
    have hw : isWS w = true := hws w (by simp)
    simp only [List.cons_append, List.dropWhile_cons, hw, if_true]
    exact ih (fun c hc => hws c (by simp [hc]))

theorem skipWS1_eq_some {u r : List Char} (h : skipWS1 u = some r) :
    ∃ ws, u = ws ++ r ∧ ws ≠ [] ∧ (∀ c ∈ ws, isWS c = true) := by
  cases u with
  | nil => simp [skipWS1] at h
  | cons c cs =>
    unfold skipWS1 at h
    by_cases hc : isWS c
    · simp only [hc, if_true, Option.some.injEq] at h
      refine ⟨c :: cs.takeWhile isWS, ?_, by simp, ?_⟩
      · rw [← h]
        simp [List.takeWhile_append_dropWhile]
      · intro x hx
        rcases List.mem_cons.mp hx with h1 | h2
        · rw [h1]; exact hc
        · exact List.mem_takeWhile_imp h2
    · simp [hc] at h

theorem skipWS1_of_split (ws r : List Char) (hne : ws ≠ []) (hws : ∀ c ∈ ws, isWS c = true)
    (hr : leadNonWS r) : skipWS1 (ws ++ r) = some r := by
  cases ws with
  | nil => exact absurd rfl hne
  | cons w wsr =>
    have hw : isWS w = true := hws w (by simp)
    simp only [List.cons_append, skipWS1, hw, if_true, Option.some.injEq]
    exact dropWhile_append_ws wsr r (fun c hc => hws c (by simp [hc])) hr

theorem leadNonWS_txn (r : List Char) : leadNonWS (kwTRANSACTION ++ r) := by
  simp only [kwTRANSACTION, List.cons_append, leadNonWS]
  decide

theorem startTxnMatch_iff (u : List Char) :
    startTxnMatch u = true ↔
      ∃ ws r, u = kwSTART ++ (ws ++ (kwTRANSACTION ++ r)) ∧ ws ≠ [] ∧
        (∀ c ∈ ws, isWS c = true) ∧ atWordBoundary r = true := by
  unfold startTxnMatch
  cases h : (stripKw kwSTART u).bind skipWS1 with
  | none =>
    simp only [Bool.false_eq_true, false_iff, not_exists]
    rintro ws r ⟨hu, hne, hws, hb⟩
    have h1 : stripKw kwSTART u = some (ws ++ (kwTRANSACTION ++ r)) :=
      (stripKw_eq_some kwSTART u _).mpr hu
    have h2 : skipWS1 (ws ++ (kwTRANSACTION ++ r)) = some (kwTRANSACTION ++ r) :=
      skipWS1_of_split ws _ hne hws (leadNonWS_txn r)
    rw [h1, Option.some_bind, h2] at h
    exact absurd h (by simp)
  | some rest2 =>
    rw [startsKw_iff]
    rcases Option.bind_eq_some.mp h with ⟨rest, h1, h2⟩
    have hu : u = kwSTART ++ rest := (stripKw_eq_some kwSTART u rest).mp h1
    constructor
    · rintro ⟨r, hr2, hb⟩
      obtain ⟨ws, hsplit, hne, hws⟩ := skipWS1_eq_some h2
      exact ⟨ws, r, by rw [hu, hsplit, hr2], hne, hws, hb⟩
    · rintro ⟨ws, r, hu2, hne, hws, hb⟩
      have hrest : rest = ws ++ (kwTRANSACTION ++ r) :=
        List.append_cancel_left (hu.symm.trans hu2)
      rw [hrest, skipWS1_of_split ws _ hne hws (leadNonWS_txn r)] at h2
      obtain h2' : kwTRANSACTION ++ r = rest2 := Option.some.inj h2
      exact ⟨r, h2'.symm, hb⟩

theorem beginMatch_iff (u : List Char) :
    beginMatch u = true ↔
      WordPrefix kwBEGIN u ∨
        ∃ ws r, u = kwSTART ++ (ws ++ (kwTRANSACTION ++ r)) ∧ ws ≠ [] ∧
          (∀ c ∈ ws, isWS c = true) ∧ atWordBoundary r = true := by
  unfold beginMatch WordPrefix
  rw [Bool.or_eq_true, startsKw_iff, startTxnMatch_iff]

theorem commitMatch_head {u : List Char} (h : commitMatch u = true) :
    ∃ t, u = 'C' :: t :=
  startsKw_head (show startsKw ('C' :: ['O', 'M', 'M', 'I', 'T']) u = true from h)

theorem rollbackMatch_head {u : List Char} (h : rollbackMatch u = true) :
    ∃ t, u = 'R' :: t :=
  startsKw_head (show startsKw ('R' :: ['O', 'L', 'L', 'B', 'A', 'C', 'K']) u = true from h)

theorem beginMatch_head {u : List Char} (h : beginMatch u = true) :
    (∃ t, u = 'B' :: t) ∨ (∃ t, u = 'S' :: t) := by
  rw [beginMatch, Bool.or_eq_true] at h
  rcases h with h1 | h2
  · exact Or.inl (startsKw_head (show startsKw ('B' :: ['E', 'G', 'I', 'N']) u = true from h1))
  · rcases (startTxnMatch_iff u).mp h2 with ⟨ws, r, hu, _, _, _⟩
    exact Or.inr ⟨_, hu⟩

theorem isCommit_not_isBegin (s : String) (h : isCommit s = true) : isBegin s = false := by
  cases hb : isBegin s with
  | false => rfl
  | true =>
    exfalso
    obtain ⟨t, ht⟩ := commitMatch_head (show commitMatch (upperTrim s) = true from h)
    rcases beginMatch_head (show beginMatch (upperTrim s) = true from hb) with
        ⟨t2, ht2⟩ | ⟨t2, ht2⟩ <;>
      · rw [ht] at ht2
        injection ht2 with h1 _
        exact absurd h1 (by decide)

theorem isRollback_not_isBegin (s : String) (h : isRollback s = true) : isBegin s = false := by
  cases hb : isBegin s with
  | false => rfl
  | true =>
    exfalso
    obtain ⟨t, ht⟩ := rollbackMatch_head (show rollbackMatch (upperTrim s) = true from h)
    rcases beginMatch_head (show beginMatch (upperTrim s) = true from hb) with
        ⟨t2, ht2⟩ | ⟨t2, ht2⟩ <;>
      · rw [ht] at ht2
        injection ht2 with h1 _
        exact absurd h1 (by decide)

theorem run_ordinary (o : Oracle) (sql : String) (s : St)
    (hb : isBegin sql = false) (hcm : isCommit sql = false) (hrb : isRollback sql = false) :
    run o sql s = execFinish o (jsTrim sql) (routeExec s (jsTrim sql)) := by
  simp [run, hb, hcm, hrb]

theorem routeExec_event (s : St) (q : String) :
    ∃ e : Event, routeExec s q = s.log e ∧ e.isExec = true ∧ e.sqlText = some q := by
  unfold routeExec
  cases h : s.ctx with
  | none => exact ⟨.execOnPool q, rfl, rfl, rfl⟩
  | some c =>
    cases hc : c.conn with
    | none => exact ⟨.execOnPool q, by simp [hc], rfl, rfl⟩
    | some cid =>
      by_cases h2 : c.inTx
      · exact ⟨.execOnConn cid q, by simp [hc, h2], rfl, rfl⟩
      · exact ⟨.execOnPool q, by simp [hc, h2], rfl, rfl⟩

@[simp]
theorem routeExec_ctx (s : St) (q : String) : (routeExec s q).ctx = s.ctx := by
  obtain ⟨e, he, _, _⟩ := routeExec_event s q
  rw [he, log_ctx]

@[simp]
theorem routeExec_nextConn (s : St) (q : String) : (routeExec s q).nextConn = s.nextConn := by
  obtain ⟨e, he, _, _⟩ := routeExec_event s q
  rw [he, log_nextConn]

theorem routeExec_pool (s : St) (q : String) (c : Ctx)
    (hctx : s.ctx = some c) (htx : c.inTx = false) :
    routeExec s q = s.log (.execOnPool q) := by
  unfold routeExec
  rw [hctx]
  cases hc : c.conn with
  | none => simp [hc]
  | some cid => simp [hc, htx]

theorem routeExec_noCtx (s : St) (q : String) (h : s.ctx = none) :
    routeExec s q = s.log (.execOnPool q) := by
  simp [routeExec, h]

@[simp]
theorem execFinish_state (o : Oracle) (q : String) (s : St) : (execFinish o q s).2 = s := by
  unfold execFinish
  cases o.execFails q <;> rfl

theorem execFinish_err (o : Oracle) (q : String) (s : St) (n : Nat)
    (h : o.execFails q = some n) : (execFinish o q s).1 = .error (.driver n) := by
  simp [execFinish, h]

theorem execFinish_ok (o : Oracle) (q : String) (s : St) (h : o.execFails q = none) :
    (execFinish o q s).1 =
      .ok { id := if insertMatch (q.data.map Char.toUpper) then (o.execRes q).insertId else none,
            changes := (o.execRes q).affectedRows.getD 0 } := by
  simp [execFinish, h]

theorem get_state (o : Oracle) (sql : String) (s : St) :
    (get o sql s).2 = routeExec s (jsTrim sql) := by
  unfold get
  cases h : o.execFails (jsTrim sql) with
  | some n => simp [h]
  | none => cases hr : o.execRows (jsTrim sql) <;> simp [h, hr]

theorem all_state (o : Oracle) (sql : String) (s : St) :
    (all o sql s).2 = routeExec s (jsTrim sql) := by
  unfold all
  cases h : o.execFails (jsTrim sql) with
  | some n => simp [h]
  | none => cases hr : o.execRows (jsTrim sql) <;> simp [h, hr]

theorem get_err (o : Oracle) (sql : String) (s : St) (n : Nat)
    (h : o.execFails (jsTrim sql) = some n) : (get o sql s).1 = .error (.driver n) := by
  simp [get, h]

theorem all_err (o : Oracle) (sql : String) (s : St) (n : Nat)
    (h : o.execFails (jsTrim sql) = some n) : (all o sql s).1 = .error (.driver n) := by
  simp [all, h]

theorem isRollback_not_isCommit (s : String) (h : isRollback s = true) : isCommit s = false := by
  cases hc : isCommit s with
  | false => rfl
  | true =>
    exfalso
    obtain ⟨t, ht⟩ := rollbackMatch_head (show rollbackMatch (upperTrim s) = true from h)
    obtain ⟨t2, ht2⟩ := commitMatch_head (show commitMatch (upperTrim s) = true from hc)
    rw [ht] at ht2
    injection ht2 with h1 _
    exact absurd h1 (by decide)

theorem isInsert_eq (sql : String) :
    insertMatch ((jsTrim sql).data.map Char.toUpper) = isInsert sql := rfl

theorem run_begin_active (o : Oracle) (sql : String) (s : St) (c : Ctx) (cid : Nat)
    (hctx : s.ctx = some c) (hbeg : isBegin sql = true) (htx : c.inTx = true)
    (hconn : c.conn = some cid) :
    run o sql s = (.ok noopRes, s) := by
  simp [run, hbeg, ensureTxConn_held o s c cid hctx hconn, htx]

/-- C1 counterexample: with no active request context, an ordinary `run`
does not fail — it executes the statement against the pool and returns a
normal result (`get` and `all` likewise succeed), contradicting the claim
that every `run`/`get`/`all` invocation without a context fails immediately
and never reaches a pool connection. -/
theorem claim1_cex :
    (run oralOk "SELECT 1" noCtxSt).1 = .ok { id := none, changes := 0 } ∧
    (run oralOk "SELECT 1" noCtxSt).2.events = [Event.execOnPool "SELECT 1"] ∧
    (get oralOk "SELECT 1" noCtxSt).1 = .ok none ∧
    (all oralOk "SELECT 1" noCtxSt).1 = .ok [] :=
  ⟨rfl, rfl, rfl, rfl⟩

/-- C1 amended: with no active request context, only `run` invocations whose
statement is classified begin, commit or rollback fail immediately with the
descriptive configuration error (and touch neither the context nor the
pool); ordinary `run` invocations and every `get`/`all` invocation instead
execute the statement directly against the pool. -/
theorem claim1_missing_ctx (o : Oracle) (sql : String) (s : St) (hctx : s.ctx = none) :
    ((isBegin sql = true ∨ isCommit sql = true ∨ isRollback sql = true) →
      run o sql s = (.error .missingCtx, s) ∧ DbErr.missingCtx.message = missingCtxMsg) ∧
    (isBegin sql = false → isCommit sql = false → isRollback sql = false →
      (run o sql s).2 = { s with events := s.events ++ [.execOnPool (jsTrim sql)] }) ∧
    (get o sql s).2 = { s with events := s.events ++ [.execOnPool (jsTrim sql)] } ∧
    (all o sql s).2 = { s with events := s.events ++ [.execOnPool (jsTrim sql)] } := by
  have hech := ensureTxConn_noCtx o s hctx
  refine ⟨?_, ?_, ?_, ?_⟩
  · rintro (hb | hcm | hrb)
    · exact ⟨by simp [run, hb, hech], rfl⟩
    · exact ⟨by simp [run, isCommit_not_isBegin sql hcm, hcm, hech], rfl⟩
    · exact ⟨by simp [run, isRollback_not_isBegin sql hrb, isRollback_not_isCommit sql hrb,
        hrb, hech], rfl⟩
  · intro hb hcm hrb
    rw [run_ordinary o sql s hb hcm hrb, execFinish_state, routeExec_noCtx s _ hctx]
    rfl
  · rw [get_state, routeExec_noCtx s _ hctx]
    rfl
  · rw [all_state, routeExec_noCtx s _ hctx]
    rfl

/-- Witness for the amended C1 theorem at concrete input. -/
theorem claim1_missing_ctx_witness :
    noCtxSt.ctx = none ∧
      run oralOk "BEGIN" noCtxSt = (.error .missingCtx, noCtxSt) ∧
      DbErr.missingCtx.message = missingCtxMsg :=
  ⟨rfl, (claim1_missing_ctx oralOk "BEGIN" noCtxSt rfl).1 (Or.inl (by decide))⟩

/-- C5: an ordinary statement issued while no transaction is active executes
against the pool, and `run`, `get` and `all` leave the request context (and
the pool's lease counter) exactly as they were — only the trace grows by the
single pool execution event. -/
theorem claim5_no_pinning (o : Oracle) (sql : String) (s : St) (c : Ctx)
    (hctx : s.ctx = some c) (htx : c.inTx = false)
    (hb : isBegin sql = false) (hcm : isCommit sql = false) (hrb : isRollback sql = false) :
    (run o sql s).2 = { s with events := s.events ++ [.execOnPool (jsTrim sql)] } ∧
    (get o sql s).2 = { s with events := s.events ++ [.execOnPool (jsTrim sql)] } ∧
    (all o sql s).2 = { s with events := s.events ++ [.execOnPool (jsTrim sql)] } := by
  refine ⟨?_, ?_, ?_⟩
  · rw [run_ordinary o sql s hb hcm hrb, execFinish_state,
      routeExec_pool s (jsTrim sql) c hctx htx]
    rfl
  · rw [get_state, routeExec_pool s (jsTrim sql) c hctx htx]
    rfl
  · rw [all_state, routeExec_pool s (jsTrim sql) c hctx htx]
    rfl

/-- Witness for C5 at concrete input. -/
theorem claim5_no_pinning_witness :
    initSt.ctx = some freshCtx ∧ freshCtx.inTx = false ∧
    isBegin "SELECT 1" = false ∧ isCommit "SELECT 1" = false ∧
    isRollback "SELECT 1" = false ∧
    ((run oralOk "SELECT 1" initSt).2 =
        { initSt with events := initSt.events ++ [.execOnPool (jsTrim "SELECT 1")] } ∧
      (get oralOk "SELECT 1" initSt).2 =
        { initSt with events := initSt.events ++ [.execOnPool (jsTrim "SELECT 1")] } ∧
      (all oralOk "SELECT 1" initSt).2 =
        { initSt with events := initSt.events ++ [.execOnPool (jsTrim "SELECT 1")] }) :=
  ⟨rfl, rfl, by decide, by decide, by decide,
    claim5_no_pinning oralOk "SELECT 1" initSt freshCtx rfl rfl
      (by decide) (by decide) (by decide)⟩

/-- C7: when the driver's statement execution fails, `run`, `get` and `all`
propagate that very error unmodified, and the request context (including an
active transaction) and the pool lease counter are exactly as before the
call. -/
theorem claim7_error_prop (o : Oracle) (sql : String) (s : St) (n : Nat)
    (hb : isBegin sql = false) (hcm : isCommit sql = false) (hrb : isRollback sql = false)
    (hf : o.execFails (jsTrim sql) = some n) :
    (run o sql s).1 = .error (.driver n) ∧ (run o sql s).2.ctx = s.ctx ∧
    (run o sql s).2.nextConn = s.nextConn ∧
    (get o sql s).1 = .error (.driver n) ∧ (get o sql s).2.ctx = s.ctx ∧
    (all o sql s).1 = .error (.driver n) ∧ (all o sql s).2.ctx = s.ctx := by
  have hr := run_ordinary o sql s hb hcm hrb
  refine ⟨?_, ?_, ?_, ?_, ?_, ?_, ?_⟩
  · rw [hr, execFinish_err _ _ _ n hf]
  · rw [hr, execFinish_state, routeExec_ctx]
  · rw [hr, execFinish_state, routeExec_nextConn]
  · exact get_err o sql s n hf
  · rw [get_state, routeExec_ctx]
  · exact all_err o sql s n hf
  · rw [all_state, routeExec_ctx]

/-- Witness for C7 at concrete input (failure inside an open transaction). -/
theorem claim7_error_prop_witness :
    isBegin "SELECT 1" = false ∧ isCommit "SELECT 1" = false ∧
    isRollback "SELECT 1" = false ∧
    oralExecBad.execFails (jsTrim "SELECT 1") = some 7 ∧
    ((run oralExecBad "SELECT 1" stTx).1 = .error (.driver 7) ∧
      (run oralExecBad "SELECT 1" stTx).2.ctx = stTx.ctx ∧
      (run oralExecBad "SELECT 1" stTx).2.nextConn = stTx.nextConn ∧
      (get oralExecBad "SELECT 1" stTx).1 = .error (.driver 7) ∧
      (get oralExecBad "SELECT 1" stTx).2.ctx = stTx.ctx ∧
      (all oralExecBad "SELECT 1" stTx).1 = .error (.driver 7) ∧
      (all oralExecBad "SELECT 1" stTx).2.ctx = stTx.ctx) :=
  ⟨by decide, by decide, by decide, rfl,
    claim7_error_prop oralExecBad "SELECT 1" stTx 7
      (by decide) (by decide) (by decide) rfl⟩

/-- C9: on a successful ordinary `run`, `changes` is the driver's reported
affected-row count (0 when the driver reports none), and `id` is the
driver's generated insert id exactly when the statement is insert-type and
such an id was produced, and null otherwise. -/
theorem claim9_result_norm (o : Oracle) (sql : String) (s : St)
    (hb : isBegin sql = false) (hcm : isCommit sql = false) (hrb : isRollback sql = false)
    (hf : o.execFails (jsTrim sql) = none) :
    ∃ res : RunRes, (run o sql s).1 = .ok res ∧
      (∀ m : Int, (o.execRes (jsTrim sql)).affectedRows = some m → res.changes = m) ∧
      ((o.execRes (jsTrim sql)).affectedRows = none → res.changes = 0) ∧
      (∀ k : Int, isInsert sql = true → (o.execRes (jsTrim sql)).insertId = some k →
        res.id = some k) ∧
      (isInsert sql = false → res.id = none) ∧
      ((o.execRes (jsTrim sql)).insertId = none → res.id = none) := by
  refine ⟨_, by rw [run_ordinary o sql s hb hcm hrb, execFinish_ok _ _ _ hf],
    ?_, ?_, ?_, ?_, ?_⟩
  · intro m hm
    simp [hm]
  · intro hm
    simp [hm]
  · intro k hi hk
    simp [isInsert_eq, hi, hk]
  · intro hi
    simp [isInsert_eq, hi]
  · intro hk
    simp [hk]

/-- Witness for C9 at concrete input (an insert with id 42, one row). -/
theorem claim9_result_norm_witness :
    isBegin "INSERT INTO t (x) VALUES (1)" = false ∧
    isCommit "INSERT INTO t (x) VALUES (1)" = false ∧
    isRollback "INSERT INTO t (x) VALUES (1)" = false ∧
    oralIns.execFails (jsTrim "INSERT INTO t (x) VALUES (1)") = none ∧
    (∃ res : RunRes, (run oralIns "INSERT INTO t (x) VALUES (1)" initSt).1 = .ok res ∧
      (∀ m : Int,
        (oralIns.execRes (jsTrim "INSERT INTO t (x) VALUES (1)")).affectedRows = some m →
          res.changes = m) ∧
      ((oralIns.execRes (jsTrim "INSERT INTO t (x) VALUES (1)")).affectedRows = none →
        res.changes = 0) ∧
      (∀ k : Int, isInsert "INSERT INTO t (x) VALUES (1)" = true →
        (oralIns.execRes (jsTrim "INSERT INTO t (x) VALUES (1)")).insertId = some k →
          res.id = some k) ∧
      (isInsert "INSERT INTO t (x) VALUES (1)" = false → res.id = none) ∧
      ((oralIns.execRes (jsTrim "INSERT INTO t (x) VALUES (1)")).insertId = none →
        res.id = none)) :=
  ⟨by decide, by decide, by decide, rfl,
    claim9_result_norm oralIns "INSERT INTO t (x) VALUES (1)" initSt
      (by decide) (by decide) (by decide) rfl⟩

theorem ctxInv_intro (c : Ctx) {t : St} (h : t.ctx = some c)
    (hc : c.inTx = true → c.conn ≠ none) : ctxInv t := by
  intro c' hc' htx'
  rw [h] at hc'
  obtain rfl := Option.some.inj hc'
  exact hc htx'

theorem ctxInv_run (o : Oracle) (sql : String) (s : St) (h : ctxInv s) :
    ctxInv (run o sql s).2 := by
  cases hb : isBegin sql with
  | true =>
    rcases hE : ensureTxConn o s with ⟨res, s1⟩
    cases res with
    | error e =>
      simp only [run, hb, if_true, hE]
      rw [ensureTxConn_err_inv hE]
      exact h
    | ok v =>
      obtain ⟨cid, c⟩ := v
      obtain ⟨hconn, hctx1⟩ := ensureTxConn_ok_inv hE
      cases htx : c.inTx with
      | true =>
        simp [run, hb, hE, htx]
        exact ctxInv_intro c hctx1 (fun _ => by simp [hconn])
      | false =>
        cases hbf : o.beginFails with
        | some n =>
          simp [run, hb, hE, htx, hbf]
          exact ctxInv_intro c (by simp [hctx1]) (fun htx' => by simp [htx] at htx')
        | none =>
          simp [run, hb, hE, htx, hbf]
          exact ctxInv_intro { c with inTx := true } (by simp) (fun _ => by simp [hconn])
  | false =>
    cases hcm : isCommit sql with
    | true =>
      rcases hE : ensureTxConn o s with ⟨res, s1⟩
      cases res with
      | error e =>
        simp only [run, hb, hcm, if_true, Bool.false_eq_true, if_false, hE]
        rw [ensureTxConn_err_inv hE]
        exact h
      | ok v =>
        obtain ⟨cid, c⟩ := v
        obtain ⟨hconn, hctx1⟩ := ensureTxConn_ok_inv hE
        cases htx : c.inTx with
        | true =>
          cases hcf : o.commitFails with
          | some n =>
            simp [run, hb, hcm, hE, htx, hcf]
            exact ctxInv_intro c (by simp [hctx1]) (fun _ => by simp [hconn])
          | none =>
            cases hrf : o.releaseFails with
            | some n =>
              simp [run, hb, hcm, hE, htx, hcf, hrf]
              exact ctxInv_intro { c with inTx := false } (by simp)
                (fun htx' => by simp at htx')
            | none =>
              simp [run, hb, hcm, hE, htx, hcf, hrf]
              exact ctxInv_intro { conn := none, inTx := false, cleaned := c.cleaned }
                (by simp) (fun htx' => by simp at htx')
        | false =>
          cases hrf : o.releaseFails with
          | some n =>
            simp [run, hb, hcm, hE, htx, hrf]
            exact ctxInv_intro c (by simp [hctx1]) (fun htx' => by simp [htx] at htx')
          | none =>
            simp [run, hb, hcm, hE, htx, hrf]
            exact ctxInv_intro { conn := none, inTx := false, cleaned := c.cleaned }
              (by simp) (fun htx' => by simp at htx')
    | false =>
      cases hrbk : isRollback sql with
      | true =>
        rcases hE : ensureTxConn o s with ⟨res, s1⟩
        cases res with
        | error e =>
          simp only [run, hb, hcm, hrbk, if_true, Bool.false_eq_true, if_false, hE]
          rw [ensureTxConn_err_inv hE]
          exact h
        | ok v =>
          obtain ⟨cid, c⟩ := v
          obtain ⟨hconn, hctx1⟩ := ensureTxConn_ok_inv hE
          cases htx : c.inTx with
          | true =>
            cases hrbf : o.rollbackFails with
            | some n =>
              simp [run, hb, hcm, hrbk, hE, htx, hrbf]
              exact ctxInv_intro c (by simp [hctx1]) (fun _ => by simp [hconn])
            | none =>
              cases hrf : o.releaseFails with
              | some n =>
                simp [run, hb, hcm, hrbk, hE, htx, hrbf, hrf]
                exact ctxInv_intro { c with inTx := false } (by simp)
                  (fun htx' => by simp at htx')
              | none =>
                simp [run, hb, hcm, hrbk, hE, htx, hrbf, hrf]
                exact ctxInv_intro { conn := none, inTx := false, cleaned := c.cleaned }
                  (by simp) (fun htx' => by simp at htx')
          | false =>
            cases hrf : o.releaseFails with
            | some n =>
              simp [run, hb, hcm, hrbk, hE, htx, hrf]
              exact ctxInv_intro c (by simp [hctx1]) (fun htx' => by simp [htx] at htx')
            | none =>
              simp [run, hb, hcm, hrbk, hE, htx, hrf]
              exact ctxInv_intro { conn := none, inTx := false, cleaned := c.cleaned }
                (by simp) (fun htx' => by simp at htx')
      | false =>
        rw [run_ordinary o sql s hb hcm hrbk, execFinish_state]
        intro c hc htx
        rw [routeExec_ctx] at hc
        exact h c hc htx

theorem ctxInv_get (o : Oracle) (sql : String) (s : St) (h : ctxInv s) :
    ctxInv (get o sql s).2 := by
  intro c hc htx
  rw [get_state, routeExec_ctx] at hc
  exact h c hc htx

theorem ctxInv_all (o : Oracle) (sql : String) (s : St) (h : ctxInv s) :
    ctxInv (all o sql s).2 := by
  intro c hc htx
  rw [all_state, routeExec_ctx] at hc
  exact h c hc htx

theorem ctxInv_cleanup (o : Oracle) (s : St) (h : ctxInv s) : ctxInv (cleanup o s) := by
  cases hctx : s.ctx with
  | none =>
    have hcl : cleanup o s = s := by simp [cleanup, hctx]
    rw [hcl]
    exact h
  | some c =>
    cases hcl : c.cleaned with
    | true =>
      have heq : cleanup o s = s := by simp [cleanup, hctx, hcl]
      rw [heq]
      exact h
    | false =>
      cases hconn : c.conn with
      | none =>
        have heq : cleanup o s = s.setCtx { c with cleaned := true } := by
          simp [cleanup, hctx, hcl, hconn]
        rw [heq]
        exact ctxInv_intro { c with cleaned := true } (by simp)
          (fun htx' => h c hctx htx')
      | some cid =>
        cases hitx : c.inTx with
        | true =>
          have heq : (cleanup o s).ctx =
              some { c with cleaned := true, conn := none, inTx := false } := by
            simp [cleanup, hctx, hcl, hconn, hitx, St.setCtx, St.log]
          exact ctxInv_intro { c with cleaned := true, conn := none, inTx := false } heq
            (fun htx' => by simp at htx')
        | false =>
          have heq : (cleanup o s).ctx =
              some { c with cleaned := true, conn := none, inTx := false } := by
            simp [cleanup, hctx, hcl, hconn, hitx, St.setCtx, St.log]
          exact ctxInv_intro { c with cleaned := true, conn := none, inTx := false } heq
            (fun htx' => by simp at htx')

theorem ctxInv_step (op : Op) (s : St) (h : ctxInv s) : ctxInv (step op s) := by
  cases op with
  | opRun o sql => exact ctxInv_run o sql s h
  | opGet o sql => exact ctxInv_get o sql s h
  | opAll o sql => exact ctxInv_all o sql s h
  | opCleanup o => exact ctxInv_cleanup o s h

theorem ctxInv_steps (ops : List Op) : ∀ s : St, ctxInv s → ctxInv (steps ops s) := by
  induction ops with
  | nil => exact fun s h => h
  | cons op rest ih =>
    intro s h
    exact ih (step op s) (ctxInv_step op s h)

/-- C3: in every state reachable from a freshly created request context by
any sequence of `run`, `get`, `all` and cleanup operations (under any
driver behaviour), an active transaction implies a held leased
connection. -/
theorem claim3_tx_invariant (ops : List Op) : ctxInv (steps ops initSt) := by
  apply ctxInv_steps
  intro c hc htx
  rw [show initSt.ctx = some freshCtx from rfl] at hc
  obtain rfl := Option.some.inj hc
  exact absurd htx (by decide)

/-- C2: if a transaction was begun and never closed, the first safety-net
cleanup rolls back the leased connection, releases it, clears `conn` and
`inTx` and sets the one-shot guard — independently of whether the driver's
rollback or release call fails, since those errors are discarded — and a
second cleanup invocation (a second completion signal) is a no-op. -/
theorem claim2_cleanup_once (o o2 : Oracle) (s : St) (c : Ctx) (cid : Nat)
    (hctx : s.ctx = some c) (hconn : c.conn = some cid) (htx : c.inTx = true)
    (hcl : c.cleaned = false) :
    cleanup o s =
      { ctx := some { conn := none, inTx := false, cleaned := true },
        nextConn := s.nextConn,
        events := s.events ++ [.rollbackTx cid, .release cid] } ∧
    cleanup o2 (cleanup o s) = cleanup o s := by
  have h1 : cleanup o s =
      { ctx := some { conn := none, inTx := false, cleaned := true },
        nextConn := s.nextConn,
        events := s.events ++ [.rollbackTx cid, .release cid] } := by
    simp [cleanup, hctx, hcl, hconn, htx, St.setCtx, St.log, List.append_assoc]
  refine ⟨h1, ?_⟩
  rw [h1]
  simp [cleanup]

/-- Witness for C2 at concrete input: the driver's rollback and release
calls both fail (`oralCleanupBad`), yet cleanup completes and the second
invocation is a no-op. -/
theorem claim2_cleanup_once_witness :
    stTx.ctx = some { conn := some 0, inTx := true, cleaned := false } ∧
    (cleanup oralCleanupBad stTx =
        { ctx := some { conn := none, inTx := false, cleaned := true },
          nextConn := stTx.nextConn,
          events := stTx.events ++ [.rollbackTx 0, .release 0] } ∧
      cleanup oralOk (cleanup oralCleanupBad stTx) = cleanup oralCleanupBad stTx) :=
  ⟨rfl, claim2_cleanup_once oralCleanupBad oralOk stTx
    { conn := some 0, inTx := true, cleaned := false } 0 rfl rfl rfl rfl⟩

/-- C4: a `run` classified commit (resp. rollback) with an active
transaction commits (resp. rolls back) on the leased connection, clears
`inTx`, releases the connection and clears it from the context, returning
the no-op result; with no active transaction and no held connection it
still transiently acquires a pool connection, performs no commit or
rollback on it, and releases it immediately, leaving the context empty and
returning the same no-op result. -/
theorem claim4_commit_rollback (o : Oracle) (sql : String) (s : St) (c : Ctx) (cid : Nat)
    (hctx : s.ctx = some c) :
    (isCommit sql = true → c.inTx = true → c.conn = some cid →
      o.commitFails = none → o.releaseFails = none →
      run o sql s = (.ok noopRes,
        { ctx := some { conn := none, inTx := false, cleaned := c.cleaned },
          nextConn := s.nextConn,
          events := s.events ++ [.commitTx cid, .release cid] })) ∧
    (isCommit sql = true → c.inTx = false → c.conn = none →
      o.acquireFails = none → o.releaseFails = none →
      run o sql s = (.ok noopRes,
        { ctx := some { conn := none, inTx := false, cleaned := c.cleaned },
          nextConn := s.nextConn + 1,
          events := s.events ++ [.acquire s.nextConn, .release s.nextConn] })) ∧
    (isRollback sql = true → c.inTx = true → c.conn = some cid →
      o.rollbackFails = none → o.releaseFails = none →
      run o sql s = (.ok noopRes,
        { ctx := some { conn := none, inTx := false, cleaned := c.cleaned },
          nextConn := s.nextConn,
          events := s.events ++ [.rollbackTx cid, .release cid] })) ∧
    (isRollback sql = true → c.inTx = false → c.conn = none →
      o.acquireFails = none → o.releaseFails = none →
      run o sql s = (.ok noopRes,
        { ctx := some { conn := none, inTx := false, cleaned := c.cleaned },
          nextConn := s.nextConn + 1,
          events := s.events ++ [.acquire s.nextConn, .release s.nextConn] })) := by
  refine ⟨?_, ?_, ?_, ?_⟩
  · intro hcm htx hconn hcf hrf
    simp [run, isCommit_not_isBegin sql hcm, hcm,
      ensureTxConn_held o s c cid hctx hconn, htx, hcf, hrf,
      St.setCtx, St.log, List.append_assoc]
  · intro hcm htx hconn ha hrf
    simp [run, isCommit_not_isBegin sql hcm, hcm,
      ensureTxConn_fresh o s c hctx hconn ha, htx, hrf,
      St.setCtx, St.log, List.append_assoc]
  · intro hrb htx hconn hrbf hrf
    simp [run, isRollback_not_isBegin sql hrb, isRollback_not_isCommit sql hrb, hrb,
      ensureTxConn_held o s c cid hctx hconn, htx, hrbf, hrf,
      St.setCtx, St.log, List.append_assoc]
  · intro hrb htx hconn ha hrf
    simp [run, isRollback_not_isBegin sql hrb, isRollback_not_isCommit sql hrb, hrb,
      ensureTxConn_fresh o s c hctx hconn ha, htx, hrf,
      St.setCtx, St.log, List.append_assoc]

/-- Witness for C4 at concrete inputs: a commit inside an open transaction,
and a rollback with no transaction begun. -/
theorem claim4_commit_rollback_witness :
    stTx.ctx = some { conn := some 0, inTx := true, cleaned := false } ∧
    isCommit "COMMIT" = true ∧ isRollback "ROLLBACK" = true ∧
    run oralOk "COMMIT" stTx = (.ok noopRes,
      { ctx := some { conn := none, inTx := false, cleaned := false },
        nextConn := stTx.nextConn,
        events := stTx.events ++ [.commitTx 0, .release 0] }) ∧
    run oralOk "ROLLBACK" initSt = (.ok noopRes,
      { ctx := some { conn := none, inTx := false, cleaned := false },
        nextConn := initSt.nextConn + 1,
        events := initSt.events ++ [.acquire initSt.nextConn, .release initSt.nextConn] }) :=
  ⟨rfl, by decide, by decide,
    (claim4_commit_rollback oralOk "COMMIT" stTx
        { conn := some 0, inTx := true, cleaned := false } 0 rfl).1
      (by decide) rfl rfl rfl rfl,
    (claim4_commit_rollback oralOk "ROLLBACK" initSt freshCtx 0 rfl).2.2.2
      (by decide) rfl rfl rfl rfl⟩

/-- C6: a `run` classified begin on a context with no transaction and no
held connection leases the pool's next connection into the context, marks
the transaction active and returns the no-op result; when a transaction is
already active it changes nothing and returns the same no-op result, so a
second begin right after a first one is a no-op on the state. -/
theorem claim6_begin_idempotent (o o2 : Oracle) (sql : String) (s : St) (c : Ctx) (cid : Nat)
    (hctx : s.ctx = some c) (hbeg : isBegin sql = true) :
    (c.inTx = false → c.conn = none → o.acquireFails = none → o.beginFails = none →
      run o sql s = (.ok noopRes,
        { ctx := some { conn := some s.nextConn, inTx := true, cleaned := c.cleaned },
          nextConn := s.nextConn + 1,
          events := s.events ++ [.acquire s.nextConn, .beginTx s.nextConn] })) ∧
    (c.inTx = true → c.conn = some cid → run o sql s = (.ok noopRes, s)) ∧
    (c.inTx = false → c.conn = none → o.acquireFails = none → o.beginFails = none →
      run o2 sql (run o sql s).2 = (.ok noopRes, (run o sql s).2)) := by
  have hpart1 : c.inTx = false → c.conn = none → o.acquireFails = none →
      o.beginFails = none →
      run o sql s = (.ok noopRes,
        { ctx := some { conn := some s.nextConn, inTx := true, cleaned := c.cleaned },
          nextConn := s.nextConn + 1,
          events := s.events ++ [.acquire s.nextConn, .beginTx s.nextConn] }) := by
    intro htx hconn ha hbf
    simp [run, hbeg, ensureTxConn_fresh o s c hctx hconn ha, htx, hbf,
      St.setCtx, St.log, List.append_assoc]
  refine ⟨hpart1, ?_, ?_⟩
  · intro htx hconn
    exact run_begin_active o sql s c cid hctx hbeg htx hconn
  · intro htx hconn ha hbf
    rw [hpart1 htx hconn ha hbf]
    exact run_begin_active o2 sql _
      { conn := some s.nextConn, inTx := true, cleaned := c.cleaned } s.nextConn
      rfl hbeg rfl rfl

/-- Witness for C6 at concrete input: begin on a fresh context, then begin
again on the resulting state. -/
theorem claim6_begin_idempotent_witness :
    initSt.ctx = some freshCtx ∧ isBegin "BEGIN" = true ∧
    run oralOk "BEGIN" initSt = (.ok noopRes,
      { ctx := some { conn := some 0, inTx := true, cleaned := false },
        nextConn := 1,
        events := [.acquire 0, .beginTx 0] }) ∧
    run oralOk "BEGIN" (run oralOk "BEGIN" initSt).2 =
      (.ok noopRes, (run oralOk "BEGIN" initSt).2) :=
  ⟨rfl, by decide,
    (claim6_begin_idempotent oralOk oralOk "BEGIN" initSt freshCtx 0 rfl (by decide)).1
      rfl rfl rfl rfl,
    (claim6_begin_idempotent oralOk oralOk "BEGIN" initSt freshCtx 0 rfl (by decide)).2.2
      rfl rfl rfl rfl⟩

/-- C10: `get` and `all` never interpret their statement as transaction
control — whatever the text (including `BEGIN`, `START TRANSACTION`,
`COMMIT`, `ROLLBACK`), they leave the request context and the pool lease
counter untouched and add exactly one execution event carrying the trimmed
statement text verbatim. -/
theorem claim10_get_all_frame (o : Oracle) (sql : String) (s : St) :
    (get o sql s).2.ctx = s.ctx ∧ (get o sql s).2.nextConn = s.nextConn ∧
    (∃ e : Event, (get o sql s).2.events = s.events ++ [e] ∧ e.isExec = true ∧
      e.sqlText = some (jsTrim sql)) ∧
    (all o sql s).2.ctx = s.ctx ∧ (all o sql s).2.nextConn = s.nextConn ∧
    (∃ e : Event, (all o sql s).2.events = s.events ++ [e] ∧ e.isExec = true ∧
      e.sqlText = some (jsTrim sql)) := by
  obtain ⟨e, he, hex, htext⟩ := routeExec_event s (jsTrim sql)
  refine ⟨?_, ?_, ⟨e, ?_, hex, htext⟩, ?_, ?_, ⟨e, ?_, hex, htext⟩⟩
  · rw [get_state, routeExec_ctx]
  · rw [get_state, routeExec_nextConn]
  · rw [get_state, he, log_events]
  · rw [all_state, routeExec_ctx]
  · rw [all_state, routeExec_nextConn]
  · rw [all_state, he, log_events]

/-- C8 counterexample: the source classifier accepts any run of whitespace
between `START` and `TRANSACTION` (regex `START\s+TRANSACTION`), so
`START  TRANSACTION` (two spaces) is classified begin even though it does
not start with the literal pseudo-statement phrase `START TRANSACTION`. -/
theorem claim8_cex :
    isBegin "START  TRANSACTION" = true ∧ specIsBegin "START  TRANSACTION" = false :=
  ⟨by decide, by decide⟩

/-- C8 amended: after trimming and case folding, the classifier reports
begin exactly when the statement starts with `BEGIN` as a whole word or
with `START`, then one or more whitespace characters, then `TRANSACTION`
as a whole word; commit exactly when it starts with `COMMIT` as a whole
word; rollback exactly when it starts with `ROLLBACK` as a whole word; and
ordinary is every other case. -/
theorem claim8_classifier (sql : String) :
    (isBegin sql = true ↔
      WordPrefix kwBEGIN (upperTrim sql) ∨
        ∃ ws r, upperTrim sql = kwSTART ++ (ws ++ (kwTRANSACTION ++ r)) ∧ ws ≠ [] ∧
          (∀ c ∈ ws, isWS c = true) ∧ atWordBoundary r = true) ∧
    (isCommit sql = true ↔ WordPrefix kwCOMMIT (upperTrim sql)) ∧
    (isRollback sql = true ↔ WordPrefix kwROLLBACK (upperTrim sql)) :=
  ⟨beginMatch_iff (upperTrim sql), startsKw_iff kwCOMMIT (upperTrim sql),
    startsKw_iff kwROLLBACK (upperTrim sql)⟩

end Db

-- Sanity checks on concrete inputs (kept as anonymous examples).
example : Db.isBegin "  begin" = true := by decide

example : Db.isBegin "START TRANSACTION" = true := by decide

example : Db.isBegin "START  TRANSACTION;" = true := by decide

example : Db.isBegin "BEGINNING" = false := by decide

example : Db.isCommit "Commit;" = true := by decide

example : Db.isRollback " rollback " = true := by decide

example : Db.isInsert "INSERT INTO t VALUES (1)" = true := by decide

example : Db.isInsert "insert" = false := by decide

example : Db.isBegin "SELECT 1" = false := by decide

example :
    Db.run Db.oralOk "SELECT 1" Db.noCtxSt =
      (.ok { id := none, changes := 0 },
        { ctx := none, nextConn := 0, events := [.execOnPool "SELECT 1"] }) := by
  rfl

example :
    Db.run Db.oralOk "BEGIN" Db.noCtxSt = (.error .missingCtx, Db.noCtxSt) := by
  rfl

example :
    (Db.run Db.oralOk "BEGIN" Db.initSt).2.ctx =
      some { conn := some 0, inTx := true, cleaned := false } := by
  decide
